import Mathlib

/-!
Verification of the yandex-disk-photo-exporter traversal engine and its
date-filtering library against the specification of the repository.

The Go sources are shallowly embedded:

* Go `time.Time` values are modelled as an absolute instant, an `Int`
  count of seconds since 0001-01-01 00:00:00 UTC (the zero `time.Time`),
  using the proleptic Gregorian calendar exactly as the Go `time` package
  computes it (`time.Date` normalizes out-of-range days linearly).
* `time.Now()` is a parameter `now : Int` (an instant) or, where only the
  year is consulted, `nowYear : Nat`.
* Pixel coordinates (float64 in the source) are modelled as exact `Int`
  values; the only operations performed on them by the source are
  addition, subtraction and order comparison, which are exact.
* Fallible Go functions returning `(T, error)` become `Except String T`
  or `Option T`.
-/

/-! ### Calendar arithmetic (mirroring the Go `time` package) -/

/-- Go `isLeap`: a year is a leap year iff divisible by 4 and not by 100
unless also by 400. -/
def isLeap (y : Nat) : Bool := y % 4 == 0 && (y % 100 != 0 || y % 400 == 0)

/-- Number of days in all years `1, …, n` of the proleptic Gregorian
calendar (Go `daysSinceEpoch` absolute-year arithmetic). -/
def daysBeforeYears (n : Nat) : Nat := 365 * n + n / 4 + n / 400 - n / 100

/-- The Go `daysBefore` table: days in a year strictly before month `m`
(1-indexed), adjusted for leap years from March on. -/
def daysBeforeMonth (leap : Bool) (m : Nat) : Nat :=
  let base : Nat :=
    match m with
    | 1 => 0 | 2 => 31 | 3 => 59 | 4 => 90 | 5 => 120 | 6 => 151
    | 7 => 181 | 8 => 212 | 9 => 243 | 10 => 273 | 11 => 304 | _ => 334
  if leap && decide (3 ≤ m) then base + 1 else base

/-- Day number of `time.Date(y, m, d, …)` counted from 0001-01-01 = day 0.
Like Go `time.Date`, the day component is applied linearly
(first-of-month plus `d - 1` days), so out-of-range days normalize into
the following month. Valid for `y ≥ 1`, `1 ≤ m ≤ 12`, any `d`. -/
def dateToDay (y m d : Nat) : Int :=
  (daysBeforeYears (y - 1) + daysBeforeMonth (isLeap y) m : Int) + d - 1

def secondsPerDay : Int := 86400

/-- The instant (seconds since 0001-01-01 UTC) of midnight UTC of the
given calendar date, i.e. Go `time.Date(y, m, d, 0, 0, 0, 0, time.UTC)`. -/
def dateInstant (y m d : Nat) : Int := dateToDay y m d * secondsPerDay

/-- The zero `time.Time`: 0001-01-01 00:00:00 UTC. -/
def zeroTime : Int := dateInstant 1 1 1

/-- Go `time.Date(1970, 1, 1, 0, 0, 0, 0, time.UTC)`, the Unix epoch,
used by `NewDateRange` as the default lower bound. -/
def unixEpoch : Int := dateInstant 1970 1 1

/-! ### Character and string helpers -/

def isDigitChar (c : Char) : Bool := 48 ≤ c.toNat && c.toNat ≤ 57

def isAlphaChar (c : Char) : Bool :=
  (65 ≤ c.toNat && c.toNat ≤ 90) || (97 ≤ c.toNat && c.toNat ≤ 122)

/-- The character class `\s` of the Go regexp package: `[\t\n\f\r ]`. -/
def isRegexSpace (c : Char) : Bool :=
  c == ' ' || c == '\t' || c == '\n' || c == '\x0c' || c == '\r'

/-- Whitespace trimmed by `strings.TrimSpace` (ASCII portion of
`unicode.IsSpace`). -/
def isTrimSpace (c : Char) : Bool := isRegexSpace c || c == '\x0b'

def trimSpaceList (l : List Char) : List Char :=
  ((l.dropWhile isTrimSpace).reverse.dropWhile isTrimSpace).reverse

/-- Go `strconv.Atoi` on a known-digit string. -/
def digitsToNat (l : List Char) : Nat :=
  l.foldl (fun a c => a * 10 + (c.toNat - 48)) 0

/-- Go `strings.ToLower` (ASCII; month names and error patterns are ASCII). -/
def lowerStr (l : List Char) : List Char := l.map Char.toLower

/-! ### Embedding of `internal/datefilter/datefilter.go` -/

/-- Table `monthMap`: English month names to month numbers. -/
def monthMap : List (List Char × Nat) :=
  [("january".data, 1), ("february".data, 2), ("march".data, 3),
   ("april".data, 4), ("may".data, 5), ("june".data, 6),
   ("july".data, 7), ("august".data, 8), ("september".data, 9),
   ("october".data, 10), ("november".data, 11), ("december".data, 12)]

def lookupMonth (w : List Char) : Option Nat :=
  (monthMap.find? (fun p => p.1 == w)).map (·.2)

/-- Function `ParseYandexDate`: parses `"12 January"` (assumes `nowYear`, from
`time.Now().Year()`) or `"12 January 2023"`, per the anchored pattern
`(\d{1,2})\s+([A-Za-z]+)(?:\s+(\d{4}))?` after `strings.TrimSpace`.
The greedy character classes are disjoint, so the regex match is
equivalent to this deterministic scan. Returns the instant produced by
`time.Date(year, month, day, 0, 0, 0, 0, time.UTC)` (no day-range
validation). -/
def ParseYandexDate (nowYear : Nat) (dateText : String) : Option Int :=
  let cs := trimSpaceList dateText.data
  let ds := cs.takeWhile isDigitChar
  let r1 := cs.dropWhile isDigitChar
  if ds.length == 0 || decide (2 < ds.length) then none else
  let sp1 := r1.takeWhile isRegexSpace
  let r2 := r1.dropWhile isRegexSpace
  if sp1.length == 0 then none else
  let ls := r2.takeWhile isAlphaChar
  let r3 := r2.dropWhile isAlphaChar
  if ls.length == 0 then none else
  match lookupMonth (lowerStr ls) with
  | none => none
  | some m =>
    let day := digitsToNat ds
    if r3.isEmpty then some (dateInstant nowYear m day)
    else
      let sp2 := r3.takeWhile isRegexSpace
      let r4 := r3.dropWhile isRegexSpace
      if sp2.length == 0 then none else
      let ys := r4.takeWhile isDigitChar
      let r5 := r4.dropWhile isDigitChar
      if ys.length == 4 && r5.isEmpty then some (dateInstant (digitsToNat ys) m day)
      else none

/-- Days in a month, as validated by Go `time.Parse`. -/
def daysIn (y m : Nat) : Nat :=
  if m == 2 then (if isLeap y then 29 else 28)
  else if m == 4 || m == 6 || m == 9 || m == 11 then 30
  else 31

/-- Go `time.Parse("2006-01-02", s)`: exactly `YYYY-MM-DD` with
zero-padded fields, month and day validated against the calendar. -/
def parseYMD (s : String) : Option Int :=
  match s.data with
  | [y1, y2, y3, y4, c1, m1, m2, c2, d1, d2] =>
    if (c1 == '-' && c2 == '-') && [y1, y2, y3, y4, m1, m2, d1, d2].all isDigitChar then
      let y := digitsToNat [y1, y2, y3, y4]
      let m := digitsToNat [m1, m2]
      let d := digitsToNat [d1, d2]
      if 1 ≤ m ∧ m ≤ 12 ∧ 1 ≤ d ∧ d ≤ daysIn y m then some (dateInstant y m d)
      else none
    else none
  | _ => none

/-- The `DateRange` struct: `From`/`To` are `time.Time` instants. -/
structure DateRange where
  From : Int
  To : Int
  Enabled : Bool
deriving DecidableEq

/-- Constructor `NewDateRange(from, to)` with the construction-time clock reading
`now` (= `time.Now()`). Empty strings disable filtering; one-sided
ranges default `To` to `now` and `From` to the Unix epoch; rejects
`From.After(To)`. -/
def NewDateRange (now : Int) (fromS toS : String) : Except String DateRange :=
  if fromS == "" && toS == "" then .ok ⟨zeroTime, zeroTime, false⟩
  else
    match (if fromS == "" then some zeroTime else parseYMD fromS) with
    | none => .error "invalid from date format"
    | some f =>
      match (if toS == "" then some zeroTime else parseYMD toS) with
      | none => .error "invalid to date format"
      | some t =>
        let t' := if fromS != "" && toS == "" then now else t
        let f' := if toS != "" && fromS == "" then unixEpoch else f
        if t' < f' then .error "from date is after to date"
        else .ok ⟨f', t', true⟩

/-- Method `(*DateRange) IsInRange`: `true` when filtering is disabled or the
parsed date lies in the inclusive range; parse failures are errors. -/
def DateRange.IsInRange (nowYear : Nat) (dr : DateRange) (dateText : String) :
    Except String Bool :=
  if !dr.Enabled then .ok true
  else match ParseYandexDate nowYear dateText with
    | none => .error ("invalid date format: " ++ dateText)
    | some d =>
      if d < dr.From then .ok false
      else if dr.To < d then .ok false
      else .ok true

/-- Method `(*DateRange) IsBeforeRange`: parsed date strictly before `From`;
`false` when disabled or unparseable. -/
def DateRange.IsBeforeRange (nowYear : Nat) (dr : DateRange) (dateText : String) : Bool :=
  if !dr.Enabled then false
  else match ParseYandexDate nowYear dateText with
    | none => false
    | some d => decide (d < dr.From)

/-- Method `(*DateRange) IsAfterRange`: parsed date strictly after `To`;
`false` when disabled or unparseable. -/
def DateRange.IsAfterRange (nowYear : Nat) (dr : DateRange) (dateText : String) : Bool :=
  if !dr.Enabled then false
  else match ParseYandexDate nowYear dateText with
    | none => false
    | some d => decide (dr.To < d)

deriving instance DecidableEq for Except

/-! ### Embedding of `internal/browser` (fault classifier) -/

/-- A Go `error` as observed by `IsBrowserClosed`: either one of the two
sentinel context errors (compared by identity in the source) or an
arbitrary error message. -/
inductive GoError where
  | canceled
  | deadlineExceeded
  | msg (s : String)
deriving DecidableEq

/-- Go `err.Error()`: the message of the error. -/
def GoError.message : GoError → String
  | .canceled => "context canceled"
  | .deadlineExceeded => "context deadline exceeded"
  | .msg s => s

/-- Go `strings.Contains(hay, pat)`: `pat` occurs as a contiguous substring
of `hay`. -/
def strContains : List Char → List Char → Bool
  | [], pat => pat.isEmpty
  | c :: t, pat => pat.isPrefixOf (c :: t) || strContains t pat

/-- The list `closedPatterns` from `IsBrowserClosed`. -/
def closedPatterns : List String :=
  ["context canceled", "context deadline exceeded", "websocket: close",
   "target closed", "browser: not connected", "session closed",
   "page closed", "connection refused", "broken pipe"]

/-- Function `IsBrowserClosed`: the Fault Classifier. `true` (Fatal) for the
context sentinel errors or when the lowercased message contains one of
`closedPatterns`; `false` (Transient) otherwise. -/
def IsBrowserClosed (e : GoError) : Bool :=
  (e == .canceled || e == .deadlineExceeded) ||
    closedPatterns.any fun p => strContains (lowerStr e.message.data) p.data

/-! ### Embedding of `internal/navigation` (Scroll Cursor) -/

/-- Constant `DefaultScrollAmount`: `ScrollDown` runs `window.scrollBy(0, 600)`. -/
def scrollDownDelta : Int := 600

/-- Function `ScrollToPosition(y)` runs `window.scrollBy(0, y - 50)`. -/
def scrollToPositionDelta (yPosition : Int) : Int := yPosition - 50

/-! ### The traversal engine (the main loop of `run` in `main.go`)

The external surface is modelled as a fixed document: a list of rendered
date-group elements, each with a label and an absolute vertical
coordinate on the page. The viewport shows the band of on-screen
coordinates; scrolling by `δ` decreases every on-screen coordinate by
`δ`. The DOM scan of `SelectFirstVisibleDate` is modelled by `locate`:
among the groups whose on-screen position lies in the scan band
`[80, innerHeight - 50)` it picks the topmost (first in document order
on ties, as the stable JS sort does). Element heights are abstracted to
zero, so the reported `y` of a group equals its band coordinate.

Faults of the surface calls are injected through a schedule of
`SurfaceEvent`s, one per loop iteration; the pure engine is the special
case of an all-clear schedule. Sleeps and console logging are dropped,
except that the parse-failure log line (the subject of the
parse-failure-conservatism property) is recorded as a `LogEvent`. -/

/-- One rendered date group: its displayed label and the absolute
vertical position of the element on the page. -/
structure DateGroup where
  label : String
  y : Int
deriving DecidableEq

/-- The scan band of `SelectFirstVisibleDate`:
`rect.top >= 80 && rect.top < window.innerHeight - 50`. -/
def inBand (h offset : Int) (g : DateGroup) : Bool :=
  decide (80 ≤ g.y - offset) && decide (g.y - offset < h - 50)

/-- First element with minimal `y` (the JS `dates.sort((a,b) => a.y - b.y)`
of a stable sort, then `dates[0]`). -/
def pickTop : List (Nat × DateGroup) → Option (Nat × DateGroup)
  | [] => none
  | x :: xs =>
    some (match pickTop xs with
          | none => x
          | some b => if x.2.y ≤ b.2.y then x else b)

/-- The group located by `SelectFirstVisibleDate` at the given scroll
offset: index into the document plus the group, or `none`. -/
def locate (h : Int) (page : List DateGroup) (offset : Int) : Option (Nat × DateGroup) :=
  pickTop (page.enum.filter fun p => inBand h offset p.2)

/-- Per-iteration behavior of the surface calls that can fail:
`canceledAtTop` is `IsContextCanceled` at the top of the loop,
`selectErr` a failure of `SelectFirstVisibleDate`, `downloadErr` a
failure of `ClickDownloadButton`, `canceledAfter` the context state at
the later in-iteration checks, and `scrollErr` a failure of the scroll
call the iteration issues (the branches issue at most one scroll each:
`ScrollDown` on an empty round, `ScrollToPosition` on skip or after
processing). A failed scroll leaves the viewport unmoved. -/
structure SurfaceEvent where
  canceledAtTop : Bool
  selectErr : Option GoError
  downloadErr : Option GoError
  canceledAfter : Bool
  scrollErr : Option GoError
deriving DecidableEq

/-- The all-clear surface behavior (no faults, context alive). -/
def calmEvent : SurfaceEvent := ⟨false, none, none, false, none⟩

/-- Why the main loop terminated (`break` sites). -/
inductive StopReason where
  | canceled
  | fatalError
  | exhausted
  | rangeStopped
deriving DecidableEq

/-- Log events recorded by the engine (only the ones the specification
reasons about). -/
inductive LogEvent where
  | parseFailure (label : String)
deriving DecidableEq

/-- The counters of `report.Stats` that the loop mutates. -/
structure Stats where
  DatesProcessed : Nat
  DownloadsStarted : Nat
  DownloadsFailed : Nat
  SkippedDates : Nat
  Errors : List (String × String)
deriving DecidableEq

def Stats.init : Stats := ⟨0, 0, 0, 0, []⟩

/-- The mutable state of the main loop. -/
structure EngState where
  offset : Int
  emptyRounds : Nat
  consecErrors : Nat
  iter : Nat
  stats : Stats
  trace : List (Nat × String × Int)
  log : List LogEvent
  stopped : Option StopReason
deriving DecidableEq

/-- The fixed context of a run: viewport height, the document, the date
range, the construction-time year used for year-less labels, and the
fault schedule. -/
structure EngCtx where
  h : Int
  page : List DateGroup
  range : DateRange
  nowYear : Nat
  events : Nat → SurfaceEvent

/-- The end of the processing branch (source lines 292-301): attempt
`ScrollToPosition` to move the processed group off screen — a fatal
scroll error breaks the loop before the counter is incremented, a
transient one is only logged (the viewport does not move) — then
`IncrementDatesProcessed`. -/
def scrollAndCount (ev : SurfaceEvent) (s : EngState) (sy : Int) : EngState :=
  match ev.scrollErr with
  | some e =>
    if IsBrowserClosed e then { s with stopped := some .fatalError }
    else { s with stats := { s.stats with
             DatesProcessed := s.stats.DatesProcessed + 1 } }
  | none =>
    { s with offset := s.offset + scrollToPositionDelta sy,
             stats := { s.stats with DatesProcessed := s.stats.DatesProcessed + 1 } }

/-- The processing branch of one iteration: the group has been selected
(`SelectFirstVisibleDate` succeeded); click Download, deselect, scroll
past the group, count it. A fatal download error or a canceled context
breaks the loop at the corresponding point of the source. -/
def processGroup (ev : SurfaceEvent) (s : EngState) (i : Nat) (g : DateGroup)
    (sy : Int) : EngState :=
  let s := { s with trace := s.trace ++ [(i, g.label, sy)] }
  match ev.downloadErr with
  | some e =>
    if IsBrowserClosed e then { s with stopped := some .fatalError }
    else
      let s := { s with stats := { s.stats with
                   DownloadsFailed := s.stats.DownloadsFailed + 1,
                   Errors := s.stats.Errors ++ [(g.label, "Download failed")] } }
      if ev.canceledAfter then { s with stopped := some .canceled }
      else scrollAndCount ev s sy
  | none =>
    let s := { s with stats := { s.stats with
                 DownloadsStarted := s.stats.DownloadsStarted + 1 } }
    if ev.canceledAfter then { s with stopped := some .canceled }
    else scrollAndCount ev s sy

/-- The branch of the loop body taken once `SelectFirstVisibleDate` has
selected a group: consult the range filter, then skip, stop, or process. -/
def foundBranch (c : EngCtx) (ev : SurfaceEvent) (s : EngState) (i : Nat)
    (g : DateGroup) : EngState :=
  let sy := g.y - s.offset
  let s := { s with emptyRounds := 0, consecErrors := 0 }
  if c.range.Enabled then
    match c.range.IsInRange c.nowYear g.label with
    | .error _ =>
      processGroup ev { s with log := s.log ++ [.parseFailure g.label] } i g sy
    | .ok true => processGroup ev s i g sy
    | .ok false =>
      if c.range.IsBeforeRange c.nowYear g.label then
        { s with stopped := some .rangeStopped }
      else
        let s := { s with stats := { s.stats with
                     SkippedDates := s.stats.SkippedDates + 1 } }
        match ev.scrollErr with
        | some _ => s
        | none => { s with offset := s.offset + scrollToPositionDelta sy }
  else processGroup ev s i g sy

/-- One iteration of the main loop of `run`. A stopped state is final:
the loop has been broken out of and no further surface calls happen. -/
def step (c : EngCtx) (s : EngState) : EngState :=
  if s.stopped.isSome then s else
  let ev := c.events s.iter
  let s := { s with iter := s.iter + 1 }
  if ev.canceledAtTop then { s with stopped := some .canceled } else
  match ev.selectErr with
  | some e =>
    if IsBrowserClosed e then { s with stopped := some .fatalError }
    else
      let ce := s.consecErrors + 1
      if 3 ≤ ce && ev.canceledAfter then { s with consecErrors := ce, stopped := some .canceled }
      else { s with consecErrors := ce }
  | none =>
    match locate c.h c.page s.offset with
    | none =>
      let s := { s with consecErrors := 0 }
      match ev.scrollErr with
      | some e =>
        if IsBrowserClosed e then { s with stopped := some .fatalError }
        else
          let s := { s with emptyRounds := s.emptyRounds + 1 }
          if 5 ≤ s.emptyRounds then { s with stopped := some .exhausted } else s
      | none =>
        let s := { s with offset := s.offset + scrollDownDelta,
                          emptyRounds := s.emptyRounds + 1 }
        if 5 ≤ s.emptyRounds then { s with stopped := some .exhausted } else s
    | some (i, g) => foundBranch c ev s i g

def initState : EngState := ⟨0, 0, 0, 0, Stats.init, [], [], none⟩

/-- The loop, fuel-bounded: the state after `n` iterations. -/
def runEngine (c : EngCtx) (n : Nat) : EngState := (step c)^[n] initState

/-! ### The `run` function around the loop (report and teardown)

`run` registers `defer stats.Print()` before creating the browser and
`defer browserCtx.Close()` right after; it returns early on setup
errors (browser creation, initial navigation, login timeout). After the
main loop it logs a completion message and executes `select {}`, which
blocks forever, so the deferred report and browser close run only on
the early-return paths. -/

/-- Which scenario `run` executes: one of the early-return setup
failures, or the main loop with a given surface context and fuel. -/
inductive RunScenario where
  | browserNewFails
  | navigateFails
  | loginTimesOut
  | loopRuns (c : EngCtx) (n : Nat)

/-- Observable outcome of `run`: how many times the final report was
printed, how many times the browser session was closed, whether `run`
returned an error, whether the program is blocked forever in
`select {}`, and how the loop stopped (if it ran and stopped). -/
structure RunOutcome where
  reportPrints : Nat
  browserCloses : Nat
  returnedError : Bool
  blockedForever : Bool
  loopStop : Option StopReason
deriving DecidableEq

/-- The control flow of `run`: deferred calls fire exactly when `run`
returns; `select {}` never returns. -/
def runProgram : RunScenario → RunOutcome
  | .browserNewFails => ⟨1, 0, true, false, none⟩
  | .navigateFails => ⟨1, 1, true, false, none⟩
  | .loginTimesOut => ⟨1, 1, true, false, none⟩
  | .loopRuns c n =>
    let s := runEngine c n
    if s.stopped.isSome then ⟨0, 0, false, true, s.stopped⟩
    else ⟨0, 0, false, false, none⟩

/-! ### Concrete fixtures used by the claim theorems -/

/-- The enabled range 2024-06-01 .. 2024-06-30. -/
def juneRange : DateRange := ⟨dateInstant 2024 6 1, dateInstant 2024 6 30, true⟩

/-- The enabled range 2024-03-01 .. 2024-03-31. -/
def marchRange : DateRange := ⟨dateInstant 2024 3 1, dateInstant 2024 3 31, true⟩

/-- A disabled range (the `NewDateRange("", "")` result). -/
def noRange : DateRange := ⟨zeroTime, zeroTime, false⟩

/-- The early-stop scenario of the specification: three groups presented
top to bottom as 5 June 2024, 1 June 2024, 25 May 2024. -/
def pageEarlyStop : List DateGroup :=
  [⟨"5 June 2024", 100⟩, ⟨"1 June 2024", 400⟩, ⟨"25 May 2024", 700⟩]

def ctxEarlyStop : EngCtx := ⟨1080, pageEarlyStop, juneRange, 2024, fun _ => calmEvent⟩

/-- An empty page: every scan round is empty, so the run exhausts. -/
def ctxExhaust : EngCtx := ⟨1080, [], noRange, 2024, fun _ => calmEvent⟩

/-- Two distinct date groups, no filter: a small clean run. -/
def ctxTwoDates : EngCtx :=
  ⟨1080, [⟨"12 June", 100⟩, ⟨"11 June", 400⟩], noRange, 2024, fun _ => calmEvent⟩

/-- One group whose label is not a date, under an enabled range. -/
def ctxBadLabel : EngCtx :=
  ⟨1080, [⟨"not a date", 100⟩], juneRange, 2024, fun _ => calmEvent⟩

/-- A surface whose `SelectFirstVisibleDate` fails with the canceled
context sentinel on every iteration. -/
def fatalEvent : SurfaceEvent := ⟨false, some .canceled, none, false, none⟩

def ctxFatalSelect : EngCtx :=
  ⟨1080, [⟨"12 June", 100⟩], noRange, 2024, fun _ => fatalEvent⟩

/-- An iteration whose only fault is a transient scroll failure: the
error message matches none of the closed-session patterns, so the loop
continues with the viewport unmoved. -/
def transientScrollEvent : SurfaceEvent :=
  ⟨false, none, none, false, some (.msg "transient scroll failure")⟩

/-- One date group; the scroll after processing it fails transiently on
the first iteration, then the surface behaves. -/
def ctxScrollFail : EngCtx :=
  ⟨1080, [⟨"12 June", 100⟩], noRange, 2024,
   fun k => if k == 0 then transientScrollEvent else calmEvent⟩

/-- Two groups sharing one label, 50 pixels apart, calm surface: after
the first is scrolled past, the second surfaces at the same on-screen
position. -/
def ctxDupLabels : EngCtx :=
  ⟨1080, [⟨"12 June", 100⟩, ⟨"12 June", 150⟩], noRange, 2024, fun _ => calmEvent⟩

/-! ### The engine invariant -/

/-- Invariant of the main loop: every trace entry names a real page
element carrying its label; while the loop is running, every traced
element has been scrolled to (or above) 50 pixels above the band; and no
page element is traced twice. -/
def LoopInv (c : EngCtx) (s : EngState) : Prop :=
  (∀ e ∈ s.trace, ∃ g : DateGroup, c.page[e.1]? = some g ∧ e.2.1 = g.label) ∧
  (s.stopped = none →
    ∀ e ∈ s.trace, ∀ g : DateGroup, c.page[e.1]? = some g → g.y - 50 ≤ s.offset) ∧
  (s.trace.map (fun e => e.1)).Nodup

/-! ### Helper lemmas -/

theorem pickTop_mem {l : List (Nat × DateGroup)} {x : Nat × DateGroup}
    (h : pickTop l = some x) : x ∈ l := by
  induction l with
  | nil => simp [pickTop] at h
  | cons a t ih =>
    simp only [pickTop, Option.some.injEq] at h
    cases ht : pickTop t with
    | none => rw [ht] at h; simp [← h]
    | some b =>
      rw [ht] at h
      dsimp only at h
      by_cases hy : a.2.y ≤ b.2.y
      · rw [if_pos hy] at h
        simp [← h]
      · rw [if_neg hy] at h
        subst h
        exact List.mem_cons_of_mem _ (ih ht)

theorem locate_spec {h off : Int} {page : List DateGroup} {i : Nat} {g : DateGroup}
    (hl : locate h page off = some (i, g)) :
    page[i]? = some g ∧ 80 ≤ g.y - off ∧ g.y - off < h - 50 := by
  have hm := pickTop_mem hl
  rw [List.mem_filter] at hm
  obtain ⟨hmem, hband⟩ := hm
  have hget : page[i]? = some g := List.mk_mem_enum_iff_getElem?.mp hmem
  simp only [inBand, Bool.and_eq_true, decide_eq_true_eq] at hband
  exact ⟨hget, hband.1, hband.2⟩

theorem scrollAndCount_trace (ev : SurfaceEvent) (s : EngState) (sy : Int) :
    (scrollAndCount ev s sy).trace = s.trace := by
  unfold scrollAndCount
  cases hsc : ev.scrollErr with
  | none => rfl
  | some e => cases hbc : IsBrowserClosed e <;> simp [hbc]

theorem scrollAndCount_offset (ev : SurfaceEvent) (s : EngState) (sy : Int) :
    (scrollAndCount ev s sy).offset = s.offset ∨
    (scrollAndCount ev s sy).offset = s.offset + scrollToPositionDelta sy := by
  unfold scrollAndCount
  cases hsc : ev.scrollErr with
  | none => right; rfl
  | some e =>
    dsimp only
    cases hbc : IsBrowserClosed e with
    | true => left; rw [if_pos rfl]
    | false => left; rw [if_neg Bool.false_ne_true]

theorem scrollAndCount_stopped_none (ev : SurfaceEvent) (s : EngState) (sy : Int)
    (h : (scrollAndCount ev s sy).stopped = none) : s.stopped = none := by
  unfold scrollAndCount at h
  cases hsc : ev.scrollErr with
  | none => rw [hsc] at h; exact h
  | some e =>
    rw [hsc] at h
    cases hbc : IsBrowserClosed e with
    | true => simp [hbc] at h
    | false => simp [hbc] at h; exact h

theorem scrollAndCount_calm (ev : SurfaceEvent) (s : EngState) (sy : Int)
    (hsc : ev.scrollErr = none) :
    scrollAndCount ev s sy =
      { s with offset := s.offset + scrollToPositionDelta sy,
               stats := { s.stats with
                          DatesProcessed := s.stats.DatesProcessed + 1 } } := by
  unfold scrollAndCount
  rw [hsc]

theorem processGroup_trace (ev : SurfaceEvent) (s : EngState) (i : Nat)
    (g : DateGroup) (sy : Int) :
    (processGroup ev s i g sy).trace = s.trace ++ [(i, g.label, sy)] := by
  unfold processGroup
  cases ev.downloadErr <;> dsimp <;> split <;> try split
  all_goals simp [scrollAndCount_trace]

theorem processGroup_offset (ev : SurfaceEvent) (s : EngState) (i : Nat)
    (g : DateGroup) (sy : Int) :
    (processGroup ev s i g sy).offset = s.offset ∨
    (processGroup ev s i g sy).offset = s.offset + scrollToPositionDelta sy := by
  unfold processGroup
  cases ev.downloadErr <;> dsimp <;> split <;> try split
  all_goals first
    | exact Or.inl rfl
    | exact Or.inr rfl
    | exact scrollAndCount_offset ..

theorem processGroup_not_stopped (ev : SurfaceEvent) (s : EngState) (i : Nat)
    (g : DateGroup) (sy : Int) (hsc : ev.scrollErr = none)
    (h : (processGroup ev s i g sy).stopped = none) :
    (processGroup ev s i g sy).offset = s.offset + scrollToPositionDelta sy := by
  unfold processGroup at h ⊢
  cases hde : ev.downloadErr with
  | none =>
    dsimp only
    cases hca : ev.canceledAfter with
    | false =>
      rw [if_neg Bool.false_ne_true]
      rw [scrollAndCount_calm _ _ _ hsc]
    | true =>
      rw [hde] at h
      simp [hca] at h
  | some e =>
    dsimp only
    cases hbc : IsBrowserClosed e with
    | false =>
      rw [if_neg Bool.false_ne_true]
      cases hca : ev.canceledAfter with
      | false =>
        rw [if_neg Bool.false_ne_true]
        rw [scrollAndCount_calm _ _ _ hsc]
      | true =>
        rw [hde] at h
        simp [hbc, hca] at h
    | true =>
      rw [hde] at h
      simp [hbc] at h

theorem step_absorb (c : EngCtx) (s : EngState) (h : s.stopped.isSome = true) :
    step c s = s := by
  unfold step
  rw [if_pos h]

theorem processGroup_stopped_none (ev : SurfaceEvent) (s : EngState) (i : Nat)
    (g : DateGroup) (sy : Int) (h : (processGroup ev s i g sy).stopped = none) :
    s.stopped = none := by
  unfold processGroup at h
  cases hde : ev.downloadErr with
  | none =>
    rw [hde] at h
    cases hca : ev.canceledAfter with
    | false =>
      simp [hca] at h
      have h2 := scrollAndCount_stopped_none _ _ _ h
      exact h2
    | true => simp [hca] at h
  | some e =>
    rw [hde] at h
    cases hbc : IsBrowserClosed e with
    | false =>
      cases hca : ev.canceledAfter with
      | false =>
        simp [hbc, hca] at h
        have h2 := scrollAndCount_stopped_none _ _ _ h
        exact h2
      | true => simp [hbc, hca] at h
    | true => simp [hbc] at h

theorem foundBranch_shape (c : EngCtx) (ev : SurfaceEvent) (s : EngState)
    (i : Nat) (g : DateGroup) :
    ((foundBranch c ev s i g).trace = s.trace ∧
      ((foundBranch c ev s i g).offset = s.offset ∨
        (foundBranch c ev s i g).offset = s.offset + scrollToPositionDelta (g.y - s.offset)) ∧
      ((foundBranch c ev s i g).stopped = none → s.stopped = none)) ∨
    ((foundBranch c ev s i g).trace = s.trace ++ [(i, g.label, g.y - s.offset)] ∧
      ((foundBranch c ev s i g).offset = s.offset ∨
        (foundBranch c ev s i g).offset = s.offset + scrollToPositionDelta (g.y - s.offset)) ∧
      ((foundBranch c ev s i g).stopped = none → s.stopped = none) ∧
      (ev.scrollErr = none → (foundBranch c ev s i g).stopped = none →
        (foundBranch c ev s i g).offset = s.offset + scrollToPositionDelta (g.y - s.offset))) := by
  unfold foundBranch
  dsimp only
  cases hen : c.range.Enabled with
  | false =>
    rw [if_neg Bool.false_ne_true]
    right
    refine ⟨processGroup_trace .., processGroup_offset .., ?_, ?_⟩
    · intro hn
      have h1 := processGroup_stopped_none _ _ _ _ _ hn
      exact h1
    · intro hsc hn
      have h2 := processGroup_not_stopped _ _ _ _ _ hsc hn
      exact h2
  | true =>
    rw [if_pos rfl]
    cases hin : c.range.IsInRange c.nowYear g.label with
    | error m =>
      dsimp only
      right
      refine ⟨processGroup_trace .., processGroup_offset .., ?_, ?_⟩
      · intro hn
        have h1 := processGroup_stopped_none _ _ _ _ _ hn
        exact h1
      · intro hsc hn
        have h2 := processGroup_not_stopped _ _ _ _ _ hsc hn
        exact h2
    | ok b =>
      cases b with
      | true =>
        dsimp only
        right
        refine ⟨processGroup_trace .., processGroup_offset .., ?_, ?_⟩
        · intro hn
          have h1 := processGroup_stopped_none _ _ _ _ _ hn
          exact h1
        · intro hsc hn
          have h2 := processGroup_not_stopped _ _ _ _ _ hsc hn
          exact h2
      | false =>
        dsimp only
        left
        cases hbr : c.range.IsBeforeRange c.nowYear g.label with
        | true =>
          rw [if_pos rfl]
          exact ⟨rfl, Or.inl rfl, by intro hx; simp at hx⟩
        | false =>
          rw [if_neg Bool.false_ne_true]
          cases hsce : ev.scrollErr with
          | some e =>
            dsimp only
            exact ⟨rfl, Or.inl rfl, fun hx => hx⟩
          | none =>
            dsimp only
            exact ⟨rfl, Or.inr rfl, fun hx => hx⟩

theorem step_shape (c : EngCtx) (s : EngState) :
    ((step c s).trace = s.trace ∧ s.offset ≤ (step c s).offset ∧
      ((step c s).stopped = none → s.stopped = none)) ∨
    (∃ i g, locate c.h c.page s.offset = some (i, g) ∧ s.stopped = none ∧
      (step c s).trace = s.trace ++ [(i, g.label, g.y - s.offset)] ∧
      s.offset ≤ (step c s).offset ∧
      ((c.events s.iter).scrollErr = none → (step c s).stopped = none →
        (step c s).offset = g.y - 50)) := by
  by_cases hst : s.stopped.isSome
  · left
    rw [step_absorb c s hst]
    exact ⟨rfl, le_refl _, fun h => h⟩
  have hs0 : s.stopped = none := Option.not_isSome_iff_eq_none.mp hst
  unfold step
  rw [if_neg hst]
  dsimp only
  cases hct : (c.events s.iter).canceledAtTop with
  | true =>
    rw [if_pos rfl]
    left
    exact ⟨rfl, le_refl _, by intro hx; simp at hx⟩
  | false =>
    rw [if_neg Bool.false_ne_true]
    cases hse : (c.events s.iter).selectErr with
    | some e =>
      dsimp only
      cases hbc : IsBrowserClosed e with
      | true =>
        rw [if_pos rfl]
        left
        exact ⟨rfl, le_refl _, by intro hx; simp at hx⟩
      | false =>
        rw [if_neg Bool.false_ne_true]
        cases hcc : (decide (3 ≤ s.consecErrors + 1) && (c.events s.iter).canceledAfter) with
        | true =>
          rw [if_pos rfl]
          left
          exact ⟨rfl, le_refl _, by intro hx; simp at hx⟩
        | false =>
          rw [if_neg Bool.false_ne_true]
          left
          exact ⟨rfl, le_refl _, fun h => h⟩
    | none =>
      dsimp only
      cases hloc : locate c.h c.page s.offset with
      | none =>
        dsimp only
        cases hsce : (c.events s.iter).scrollErr with
        | some e =>
          dsimp only
          cases hbc : IsBrowserClosed e with
          | true =>
            rw [if_pos rfl]
            left
            exact ⟨rfl, le_refl _, by intro hx; simp at hx⟩
          | false =>
            rw [if_neg Bool.false_ne_true]
            by_cases hem : 5 ≤ s.emptyRounds + 1
            · rw [if_pos hem]
              left
              exact ⟨rfl, le_refl _, by intro hx; simp at hx⟩
            · rw [if_neg hem]
              left
              exact ⟨rfl, le_refl _, fun h => h⟩
        | none =>
          dsimp only
          by_cases hem : 5 ≤ s.emptyRounds + 1
          · rw [if_pos hem]
            left
            refine ⟨rfl, ?_, by intro hx; simp at hx⟩
            simp only [scrollDownDelta]
            omega
          · rw [if_neg hem]
            left
            refine ⟨rfl, ?_, fun h => h⟩
            simp only [scrollDownDelta]
            omega
      | some p =>
        obtain ⟨i, g⟩ := p
        dsimp only
        obtain ⟨hget, hlo, hhi⟩ := locate_spec hloc
        rcases foundBranch_shape c (c.events s.iter) { s with iter := s.iter + 1 } i g with
          ⟨ht, ho, hstp⟩ | ⟨ht, ho, hstn, hstp⟩
        · left
          dsimp only at ht ho hstp
          refine ⟨ht, ?_, hstp⟩
          rcases ho with ho | ho
          · rw [ho]
          · rw [ho]
            simp only [scrollToPositionDelta]
            omega
        · right
          refine ⟨i, g, rfl, hs0, ?_⟩
          dsimp only at ht ho hstp
          refine ⟨ht, ?_, ?_⟩
          · rcases ho with ho | ho
            · rw [ho]
            · rw [ho]
              simp only [scrollToPositionDelta]
              omega
          · intro hsce hn
            have hoff := hstp hsce hn
            rw [hoff]
            simp only [scrollToPositionDelta]
            omega

theorem step_offset_le (c : EngCtx) (s : EngState) : s.offset ≤ (step c s).offset := by
  rcases step_shape c s with ⟨-, ho, -⟩ | ⟨-, -, -, -, -, ho, -⟩ <;> exact ho

theorem runEngine_succ (c : EngCtx) (n : Nat) :
    runEngine c (n + 1) = step c (runEngine c n) := by
  unfold runEngine
  exact Function.iterate_succ_apply' (step c) n initState

theorem runEngine_offset_mono (c : EngCtx) {m n : Nat} (h : m ≤ n) :
    (runEngine c m).offset ≤ (runEngine c n).offset := by
  induction n, h using Nat.le_induction with
  | base => exact le_refl _
  | succ k hk ih =>
    refine le_trans ih ?_
    rw [runEngine_succ]
    exact step_offset_le c (runEngine c k)

theorem loopInv_step (c : EngCtx) (s : EngState)
    (hsc : (c.events s.iter).scrollErr = none) (h : LoopInv c s) :
    LoopInv c (step c s) := by
  obtain ⟨hgood, hbound, hnodup⟩ := h
  rcases step_shape c s with ⟨ht, ho, hso⟩ | ⟨i, g, hloc, hs0, ht, ho, hoff⟩
  · refine ⟨?_, ?_, ?_⟩
    · rw [ht]; exact hgood
    · intro hn e he g' hg'
      rw [ht] at he
      exact le_trans (hbound (hso hn) e he g' hg') ho
    · rw [ht]; exact hnodup
  · obtain ⟨hget, hlo, hhi⟩ := locate_spec hloc
    have hnew : i ∉ s.trace.map (fun e => e.1) := by
      intro hmem
      obtain ⟨e, he, he1⟩ := List.mem_map.mp hmem
      have := hbound hs0 e he g (by rw [he1]; exact hget)
      omega
    refine ⟨?_, ?_, ?_⟩
    · intro e he
      rw [ht] at he
      rcases List.mem_append.mp he with he | he
      · exact hgood e he
      · rw [List.mem_singleton.mp he]
        exact ⟨g, hget, rfl⟩
    · intro hn e he g' hg'
      rw [hoff hsc hn]
      rw [ht] at he
      rcases List.mem_append.mp he with he | he
      · have h1 := hbound hs0 e he g' hg'
        have h2 := le_trans (le_of_eq rfl) ho
        have h3 : s.offset ≤ (step c s).offset := ho
        rw [hoff hsc hn] at h3
        omega
      · rw [List.mem_singleton.mp he] at hg'
        rw [hget] at hg'
        injection hg' with hg'
        rw [← hg']
    · rw [ht, List.map_append, List.nodup_append]
      refine ⟨hnodup, List.nodup_singleton _, ?_⟩
      intro a ha hb
      simp only [List.map_cons, List.map_nil, List.mem_singleton] at hb
      rw [hb] at ha
      exact hnew ha

theorem loopInv_run (c : EngCtx) (hsc : ∀ k, (c.events k).scrollErr = none)
    (n : Nat) : LoopInv c (runEngine c n) := by
  induction n with
  | zero =>
    refine ⟨?_, ?_, ?_⟩ <;> simp [runEngine, initState]
  | succ k ih =>
    rw [runEngine_succ]
    exact loopInv_step c (runEngine c k) (hsc _) ih

theorem processGroup_calm (ev : SurfaceEvent) (s : EngState) (i : Nat) (g : DateGroup)
    (sy : Int) (hde : ev.downloadErr = none) (hca : ev.canceledAfter = false)
    (hsc : ev.scrollErr = none) :
    processGroup ev s i g sy =
      { s with trace := s.trace ++ [(i, g.label, sy)],
               offset := s.offset + scrollToPositionDelta sy,
               stats := { s.stats with
                          DownloadsStarted := s.stats.DownloadsStarted + 1,
                          DatesProcessed := s.stats.DatesProcessed + 1 } } := by
  unfold processGroup
  rw [hde]
  dsimp only
  rw [hca]
  rw [if_neg Bool.false_ne_true]
  rw [scrollAndCount_calm _ _ _ hsc]

theorem step_found (c : EngCtx) (s : EngState) (i : Nat) (g : DateGroup)
    (hs0 : s.stopped = none)
    (hct : (c.events s.iter).canceledAtTop = false)
    (hse : (c.events s.iter).selectErr = none)
    (hloc : locate c.h c.page s.offset = some (i, g)) :
    step c s = foundBranch c (c.events s.iter) { s with iter := s.iter + 1 } i g := by
  unfold step
  rw [if_neg (by simp [hs0])]
  dsimp only
  rw [hct]
  rw [if_neg Bool.false_ne_true]
  rw [hse]
  dsimp only
  rw [hloc]

theorem step_fatal (c : EngCtx) (s : EngState) (e : GoError)
    (hs0 : s.stopped = none)
    (hct : (c.events s.iter).canceledAtTop = false)
    (hse : (c.events s.iter).selectErr = some e)
    (hbc : IsBrowserClosed e = true) :
    step c s = { s with iter := s.iter + 1, stopped := some StopReason.fatalError } := by
  unfold step
  rw [if_neg (by simp [hs0])]
  dsimp only
  rw [hct]
  rw [if_neg Bool.false_ne_true]
  rw [hse]
  dsimp only
  rw [hbc]
  rw [if_pos rfl]

theorem strContains_iff (hay pat : List Char) :
    strContains hay pat = true ↔ pat <:+: hay := by
  induction hay with
  | nil =>
    simp only [strContains, List.isEmpty_iff]
    constructor
    · intro h; rw [h]
    · intro h; exact List.eq_nil_of_infix_nil h
  | cons a t ih =>
    simp only [strContains, Bool.or_eq_true, List.isPrefixOf_iff_prefix, ih,
      List.infix_cons_iff]

theorem newDateRange_from_only (now : Int) (fromS : String) (d : Int)
    (hp : parseYMD fromS = some d) (hne : fromS ≠ "") :
    NewDateRange now fromS "" =
      if now < d then Except.error "from date is after to date"
      else Except.ok ⟨d, now, true⟩ := by
  have hb : (fromS == "") = false := by
    rw [beq_eq_false_iff_ne]
    exact hne
  unfold NewDateRange
  simp [hb, hp, hne]

/-! ### Claim theorems -/

/-- C1 counterexample: the claim as stated fails on the code. First
scenario: one date group; the post-processing `ScrollToPosition` fails
transiently on the first iteration (source lines 292-298 only log the
warning and line 301 still increments the counter), so the viewport
does not move and the next iteration passes the identical (label,
position) pair ("12 June", 100) through select, download and deselect
again. Second scenario: two groups sharing a label 50 pixels apart
under a calm surface also yield the same pair twice, since the scroll
past the first (y - 50) surfaces the second at the same on-screen
position. -/
theorem c1_at_most_once_counterexample :
    (runEngine ctxScrollFail 2).trace.map (fun e => e.2) =
      [("12 June", 100), ("12 June", 100)] ∧
    ¬ ((runEngine ctxScrollFail 2).trace.map (fun e => e.2)).Nodup ∧
    (runEngine ctxScrollFail 2).stats.DatesProcessed = 2 ∧
    (runEngine ctxScrollFail 2).stopped = none ∧
    (runEngine ctxDupLabels 2).trace.map (fun e => e.2) =
      [("12 June", 100), ("12 June", 100)] ∧
    ¬ ((runEngine ctxDupLabels 2).trace.map (fun e => e.2)).Nodup :=
  ⟨by decide, by decide, by decide, by decide, by decide, by decide⟩

/-- C1 amended: at-most-once processing holds provided every scroll the
engine issues succeeds (a transiently failed scroll leaves the viewport
unmoved while the loop continues) and the rendered date groups bear
pairwise-distinct labels (as date groups on the timeline do, one per
date). Then, under any schedule of the remaining surface faults and any
fuel, no (label, vertical position) pair is passed to the Selection
Controller twice: the processed trace has no duplicate pairs. -/
theorem c1_at_most_once (c : EngCtx)
    (hsc : ∀ k, (c.events k).scrollErr = none)
    (hlab : (c.page.map DateGroup.label).Nodup) (n : Nat) :
    ((runEngine c n).trace.map (fun e => e.2)).Nodup := by
  obtain ⟨hgood, -, hnodup⟩ := loopInv_run c hsc n
  have htr : (runEngine c n).trace.Nodup := hnodup.of_map
  refine htr.map_on ?_
  intro x hx y hy hxy
  obtain ⟨gx, hgx, hlx⟩ := hgood x hx
  obtain ⟨gy, hgy, hly⟩ := hgood y hy
  have hxlt : x.1 < c.page.length := by
    by_contra hlt
    push_neg at hlt
    rw [List.getElem?_eq_none hlt] at hgx
    exact Option.noConfusion hgx
  have hxle : x.1 < (c.page.map DateGroup.label).length := by
    rw [List.length_map]; exact hxlt
  have h1 : (c.page.map DateGroup.label)[x.1]? = some gx.label := by
    rw [List.getElem?_map, hgx]; rfl
  have h2 : (c.page.map DateGroup.label)[y.1]? = some gy.label := by
    rw [List.getElem?_map, hgy]; rfl
  have hlabel : gx.label = gy.label := by
    rw [← hlx, ← hly]; exact congrArg Prod.fst hxy
  have hidx : x.1 = y.1 := by
    apply List.getElem?_inj hxle hlab
    rw [h1, h2, hlabel]
  exact Prod.ext hidx hxy

theorem c1_at_most_once_witness :
    (ctxTwoDates.events 0).scrollErr = none ∧
    (ctxTwoDates.page.map DateGroup.label).Nodup ∧
    ((runEngine ctxTwoDates 4).trace.map (fun e => e.2)).Nodup :=
  ⟨rfl, by decide, c1_at_most_once ctxTwoDates (fun _ => rfl) (by decide) 4⟩

/-- C2: monotonic cursor. ScrollDown adds the fixed positive step 600;
ScrollToPosition adds y - 50, which is positive for any position y ≥ 80
coming from the scan band; and across a whole run, for any context and
any fault schedule, the cumulative scroll offset is non-decreasing. -/
theorem c2_monotonic_cursor :
    scrollDownDelta = 600 ∧
    (∀ y : Int, 80 ≤ y → 0 < scrollToPositionDelta y) ∧
    (∀ (c : EngCtx) (m n : Nat), m ≤ n →
      (runEngine c m).offset ≤ (runEngine c n).offset) := by
  refine ⟨rfl, ?_, ?_⟩
  · intro y hy
    simp only [scrollToPositionDelta]
    omega
  · intro c m n h
    exact runEngine_offset_mono c h

theorem c2_monotonic_cursor_witness :
    0 < scrollToPositionDelta 80 ∧
    (runEngine ctxTwoDates 1).offset ≤ (runEngine ctxTwoDates 5).offset :=
  ⟨c2_monotonic_cursor.2.1 80 (by decide),
   c2_monotonic_cursor.2.2 ctxTwoDates 1 5 (by decide)⟩

/-- C3: evaluation of `run` at a loop-terminating input. When the loop
ends (here: exhaustion after 5 empty rounds on an empty page), `run`
logs completion and blocks forever in `select {}`: the deferred final
report is printed 0 times and the browser session is closed 0 times,
contradicting the claimed report-once/close-once behavior. The deferred
calls do fire exactly once each on the early-return setup paths
(second conjunct). -/
theorem c3_report_and_teardown :
    runProgram (RunScenario.loopRuns ctxExhaust 5) =
      { reportPrints := 0, browserCloses := 0, returnedError := false,
        blockedForever := true, loopStop := some StopReason.exhausted } ∧
    runProgram RunScenario.navigateFails =
      { reportPrints := 1, browserCloses := 1, returnedError := true,
        blockedForever := false, loopStop := none } :=
  ⟨by decide, rfl⟩

/-- C4: range inclusion is inclusive on both bounds. For the range
2024-06-01 .. 2024-06-30 (any construction time, any current year):
1 June and 30 June 2024 are in range; 31 May 2024 is not and is before
the range; 1 July 2024 is not and is after the range. -/
theorem c4_range_inclusion (now : Int) (ny : Nat) :
    ∃ r : DateRange,
      NewDateRange now "2024-06-01" "2024-06-30" = Except.ok r ∧
      r.IsInRange ny "1 June 2024" = Except.ok true ∧
      r.IsInRange ny "30 June 2024" = Except.ok true ∧
      r.IsInRange ny "31 May 2024" = Except.ok false ∧
      r.IsBeforeRange ny "31 May 2024" = true ∧
      r.IsInRange ny "1 July 2024" = Except.ok false ∧
      r.IsAfterRange ny "1 July 2024" = true :=
  ⟨juneRange, rfl, rfl, rfl, rfl, rfl, rfl, rfl⟩

/-- C5 counterexample: `NewDateRange("", "2023-12-31")` sets `From` to
1970-01-01 UTC (the Unix epoch), which is not the earliest representable
date: the program itself parses "1 January 1960" to a representable
instant strictly below `From`. -/
theorem c5_unbounded_defaults_counterexample :
    NewDateRange 0 "" "2023-12-31" =
      Except.ok ⟨unixEpoch, dateInstant 2023 12 31, true⟩ ∧
    ParseYandexDate 2024 "1 January 1960" = some (dateInstant 1960 1 1) ∧
    dateInstant 1960 1 1 < unixEpoch :=
  ⟨by decide, by decide, by decide⟩

/-- C5 amended: `NewDateRange(from, "")` yields `To` equal to the clock
reading (`time.Now()`) at construction, provided that instant is not
before the `from` date (otherwise construction errors, see C10); and
`NewDateRange("", to)` yields `From` equal to 1970-01-01 00:00:00 UTC
(the Unix epoch), not the earliest representable date. -/
theorem c5_unbounded_defaults (now : Int) (h : dateInstant 2024 1 1 ≤ now) :
    NewDateRange now "2024-01-01" "" =
      Except.ok ⟨dateInstant 2024 1 1, now, true⟩ ∧
    NewDateRange now "" "2023-12-31" =
      Except.ok ⟨unixEpoch, dateInstant 2023 12 31, true⟩ := by
  constructor
  · rw [newDateRange_from_only now "2024-01-01" (dateInstant 2024 1 1) (by decide)
      (by decide)]
    rw [if_neg (not_lt.mpr h)]
  · rfl

theorem c5_unbounded_defaults_witness :
    NewDateRange (dateInstant 2024 5 1) "2024-01-01" "" =
      Except.ok ⟨dateInstant 2024 1 1, dateInstant 2024 5 1, true⟩ ∧
    NewDateRange (dateInstant 2024 5 1) "" "2023-12-31" =
      Except.ok ⟨unixEpoch, dateInstant 2023 12 31, true⟩ :=
  c5_unbounded_defaults (dateInstant 2024 5 1) (by decide)

/-- C6: early stop. With groups presented as 5 June 2024, 1 June 2024,
25 May 2024 and the enabled range 2024-06-01 .. 2024-06-30, the engine
processes exactly the first two groups, stops with RANGE_STOPPED on the
third (classified before the range), and issues no scroll past it (the
offset stays at 350, the value reached scrolling past the second group);
every later iteration leaves the state unchanged. -/
theorem c6_early_stop :
    NewDateRange 0 "2024-06-01" "2024-06-30" = Except.ok juneRange ∧
    (runEngine ctxEarlyStop 3).stats.DatesProcessed = 2 ∧
    (runEngine ctxEarlyStop 3).trace =
      [(0, "5 June 2024", 100), (1, "1 June 2024", 350)] ∧
    (runEngine ctxEarlyStop 3).stopped = some StopReason.rangeStopped ∧
    (runEngine ctxEarlyStop 3).offset = 350 ∧
    ∀ n, 3 ≤ n → runEngine ctxEarlyStop n = runEngine ctxEarlyStop 3 := by
  refine ⟨by decide, by decide, by decide, by decide, by decide, ?_⟩
  intro n hn
  induction n, hn using Nat.le_induction with
  | base => rfl
  | succ k hk ih =>
    rw [runEngine_succ, ih]
    exact step_absorb _ _ (by decide)

theorem c6_early_stop_witness : runEngine ctxEarlyStop 7 = runEngine ctxEarlyStop 3 :=
  c6_early_stop.2.2.2.2.2 7 (by decide)

/-- C7: fault classification. `IsBrowserClosed` returns Fatal (true)
exactly for the two context sentinel errors or a message containing one
of the session-termination patterns; element-not-found errors are
Transient (false); and a Fatal classification of a select failure makes
the engine break out of the loop at once — the state is unchanged except
for the stop marker (no scroll, no trace, no counters), and a stopped
loop never issues another surface call. -/
theorem c7_fault_classification :
    (∀ e : GoError, IsBrowserClosed e = true ↔
      (e = GoError.canceled ∨ e = GoError.deadlineExceeded ∨
        ∃ p ∈ closedPatterns, p.data <:+: lowerStr e.message.data)) ∧
    IsBrowserClosed (.msg "could not find node") = false ∧
    IsBrowserClosed (.msg "error fetching dates: element not visible") = false ∧
    IsBrowserClosed (.msg "websocket: close 1006 (abnormal closure)") = true ∧
    (∀ (c : EngCtx) (s : EngState) (e : GoError),
      s.stopped = none →
      (c.events s.iter).canceledAtTop = false →
      (c.events s.iter).selectErr = some e →
      IsBrowserClosed e = true →
      step c s = { s with iter := s.iter + 1, stopped := some StopReason.fatalError }) ∧
    (∀ (c : EngCtx) (s : EngState), s.stopped.isSome = true → step c s = s) := by
  refine ⟨?_, by decide, by decide, by decide, ?_, ?_⟩
  · intro e
    unfold IsBrowserClosed
    simp [List.any_eq_true, strContains_iff, beq_iff_eq, or_assoc]
  · intro c s e hs0 hct hse hbc
    exact step_fatal c s e hs0 hct hse hbc
  · intro c s h
    exact step_absorb c s h

theorem c7_fault_classification_witness :
    IsBrowserClosed GoError.canceled = true ∧
    step ctxFatalSelect initState =
      { initState with iter := 1, stopped := some StopReason.fatalError } :=
  ⟨(c7_fault_classification.1 GoError.canceled).mpr (Or.inl rfl),
   c7_fault_classification.2.2.2.2.1 ctxFatalSelect initState GoError.canceled
     rfl rfl rfl (by decide)⟩

/-- C8: parse-failure conservatism. When the label of a located group fails
to parse while the range is enabled (and the surface behaves), the
engine still processes the group — the (label, position) pair is passed
on, the processed counter is incremented — and a parse-failure log
entry is emitted rather than the group being silently dropped. -/
theorem c8_parse_failure_conservatism (c : EngCtx) (s : EngState) (i : Nat)
    (g : DateGroup)
    (hs0 : s.stopped = none)
    (hev : c.events s.iter = calmEvent)
    (hloc : locate c.h c.page s.offset = some (i, g))
    (hen : c.range.Enabled = true)
    (hpf : ParseYandexDate c.nowYear g.label = none) :
    (step c s).trace = s.trace ++ [(i, g.label, g.y - s.offset)] ∧
    (step c s).stats.DatesProcessed = s.stats.DatesProcessed + 1 ∧
    (step c s).log = s.log ++ [LogEvent.parseFailure g.label] := by
  have hct : (c.events s.iter).canceledAtTop = false := by rw [hev]; rfl
  have hse : (c.events s.iter).selectErr = none := by rw [hev]; rfl
  have hstep := step_found c s i g hs0 hct hse hloc
  rw [hstep]
  unfold foundBranch
  dsimp only
  rw [hen]
  rw [if_pos rfl]
  have hin : c.range.IsInRange c.nowYear g.label =
      Except.error ("invalid date format: " ++ g.label) := by
    unfold DateRange.IsInRange
    rw [hen]
    rw [if_neg (by simp)]
    rw [hpf]
  rw [hin]
  dsimp only
  rw [processGroup_calm _ _ _ _ _ (by rw [hev]; rfl) (by rw [hev]; rfl) (by rw [hev]; rfl)]
  exact ⟨rfl, rfl, rfl⟩

theorem c8_parse_failure_conservatism_witness :
    (step ctxBadLabel initState).trace = [(0, "not a date", 100)] ∧
    (step ctxBadLabel initState).stats.DatesProcessed = 1 ∧
    (step ctxBadLabel initState).log = [LogEvent.parseFailure "not a date"] := by
  have h := c8_parse_failure_conservatism ctxBadLabel initState 0 ⟨"not a date", 100⟩
    rfl rfl (by decide) rfl (by decide)
  simpa using h

/-- C9: `ParseYandexDate` does not validate the day against the month:
"31 February 2024" parses successfully (for any assumed current year)
and the out-of-range day normalizes into the following month, yielding
2024-03-02; likewise "99 January 2024" yields 2024-04-08; and range
classification uses the normalized date — "31 February 2024" classifies
within the range 2024-03-01 .. 2024-03-31. -/
theorem c9_day_normalization (ny : Nat) :
    ParseYandexDate ny "31 February 2024" = some (dateInstant 2024 2 31) ∧
    dateInstant 2024 2 31 = dateInstant 2024 3 2 ∧
    ParseYandexDate ny "99 January 2024" = some (dateInstant 2024 1 99) ∧
    dateInstant 2024 1 99 = dateInstant 2024 4 8 ∧
    marchRange.IsInRange ny "31 February 2024" = Except.ok true ∧
    NewDateRange 0 "2024-03-01" "2024-03-31" = Except.ok marchRange :=
  ⟨rfl, by decide, rfl, by decide, rfl, by decide⟩

/-- C10: a syntactically valid `from` date lying strictly after the
construction instant makes `NewDateRange(from, "")` return an error
(the defaulted `To = time.Now()` fails the From-after-To validation)
rather than an enabled range. -/
theorem c10_from_after_now (now : Int) (fromS : String) (d : Int)
    (hp : parseYMD fromS = some d) (hlt : now < d) :
    NewDateRange now fromS "" = Except.error "from date is after to date" := by
  have hne : fromS ≠ "" := by
    intro h
    rw [h] at hp
    simp [parseYMD] at hp
  rw [newDateRange_from_only now fromS d hp hne]
  rw [if_pos hlt]

theorem c10_from_after_now_witness :
    NewDateRange 0 "2024-01-01" "" = Except.error "from date is after to date" :=
  c10_from_after_now 0 "2024-01-01" (dateInstant 2024 1 1) (by decide) (by decide)
